import Mathlib

/-!
# MqttSql installer (`src/Installer/Installer.cpp`)

A shallow embedding of the installer's `main` and a verification of the
properties stated for it.

Modelling conventions

* A `std::string` / `std::string_view` is a Lean `String`, one `Char` per
  C++ `char`; `size()` is `String.length`.
* `size_t` arithmetic is arithmetic on `Nat` modulo `2 ^ 64`.
* `operator[]` is a partial function (`stringIndex`): a position beyond
  `size()` has no defined result, and `main` has no defined result
  (`none`) when it evaluates such an access.
* The collaborators (`std::filesystem`, `Command::exec`, the `extract*`
  functions of `embedded::mqttsql`) are not part of the source file.  Each
  call is recorded in the trace of the run; the values the calls return
  are supplied by an environment `Env`.  The two filesystem calls are the
  throwing overloads and `main` has no handler: when one of them throws,
  the run ends at that call (`std::terminate`) without an exit code of
  `main`.  `Command::exec` and the `extract*` functions are taken to
  return, as in the interfaces of section 6.  A run executes at most three
  command lines and they are pairwise distinct
  (`dotnetInfo_ne_runtimeInstallCommand`,
  `dotnetInfo_ne_serviceInstallCommand`,
  `runtimeInstallCommand_ne_serviceInstallCommand`), so a function of the
  command line represents any results the commands of one run can return.
* Every `std::cout << ... << std::endl` statement is recorded as one
  `Event.cout` carrying the text of the line.
-/

namespace Installer

/-! ## Data model -/

/-- Number of values of `size_t` (64-bit target). -/
def SIZE_MODULUS : Nat := 18446744073709551616

/-- Modelled from the spec: the result type of `Command::exec`, declared in
`include/command.hpp`, which is not part of the source file.  Section 6
gives `execCommand(commandLine) -> {exitStatus: int, output: string}`; the
field names are those `main` reads (`exitstatus`, `output`). -/
structure CommandResult where
  output : String
  exitstatus : Int
deriving DecidableEq

/-- The path constants of `embedded::mqttsql`
(`dotNetRuntimePath`, `configFilePath`, `executablePath`).  In the source
they are `std::string_view`s initialised from C string literals
(`std::string_view dotNetRuntimePath = "";`), so `path.data()` denotes the
same characters as the view; the generated header that gives them their
release values is not part of the source file, hence they are parameters. -/
structure Embedded where
  dotNetRuntimePath : String
  configFilePath : String
  executablePath : String
deriving DecidableEq

/-- Modelled from the spec: the collaborators whose outcome decides what
`main` does next, none of them defined in the source file, with the
interfaces of section 6: `exists(path) -> bool` (`std::filesystem::exists`),
`createDirectory(path) -> bool` (`std::filesystem::create_directory`) and
`execCommand(commandLine) -> {exitStatus, output}` (`Command::exec`, run
synchronously).  The source calls the overloads of the two filesystem
functions that report an error by throwing `std::filesystem::filesystem_error`;
`none` is a call that throws, `some b` a call that returns `b`.  They are
parameters of a run. -/
structure Env where
  fsExists : String → Option Bool
  createDirectory : String → Option Bool
  exec : String → CommandResult

/-- One observable step of a run, in program order. -/
inductive Event where
  | cout (line : String)
  | fsExists (path : String)
  | createDirectory (path : String)
  | exec (commandLine : String)
  | extractDotNetRuntime (outputDir : String)
  | extractConfigFile (outputDir : String)
  | extractDependencies (outputDir : String)
  | extractExecutable (outputDir : String)
deriving DecidableEq

/-- A run: the events in program order and the exit code `main` returns;
`exitCode` is `none` when the run is ended by an exception that nothing
catches, before `main` returns. -/
structure Run where
  trace : List Event
  exitCode : Option Int
deriving DecidableEq

/-! ## Strings -/

/-- The constant `const std::string DotNetVersion = "6.0.2";`. -/
def DotNetVersion : String := "6.0.2"

/-- The access `s[pos]` of `std::string`: the character at `pos` when
`pos < size()`, the terminating null character when `pos = size()`, and no
defined result beyond that. -/
def stringIndex (s : String) (pos : Nat) : Option Char :=
  if pos < s.length then s.data[pos]?
  else if pos = s.length then some (Char.ofNat 0)
  else none

/-- The index expression `targetDir.length() - 1`, computed in `size_t`. -/
def lengthMinusOne (s : String) : Nat :=
  (s.length + SIZE_MODULUS - 1) % SIZE_MODULUS

/-- Search of `hay` for `pat`, reporting the position of the first
occurrence, counted from `pos`. -/
def findFrom (pat : List Char) : List Char → Nat → Option Nat
  | [], pos => if pat.isPrefixOf [] then some pos else none
  | c :: cs, pos =>
    if pat.isPrefixOf (c :: cs) then some pos else findFrom pat cs (pos + 1)

/-- The call `s.find(pat)` of `std::string`: the position of the first
occurrence of `pat` in `s`; `none` stands for `std::string::npos`. -/
def find (s pat : String) : Option Nat :=
  findFrom pat.data s.data 0

/-! ## `main` -/

/-- The initial value of `targetDir` (line 32):
`argc > 1 ? argv[1] : "C:\\Program Files\\MqttSql\\"`. -/
def initialTargetDir (argv : List String) : String :=
  if h : 1 < argv.length then argv[1] else "C:\\Program Files\\MqttSql\\"

/-- The condition of the `if` on lines 33-34:
`targetDir[targetDir.length() - 1] != '\\' && targetDir[targetDir.length() - 1] != '/'`.
The second access is evaluated only when the first comparison holds. -/
def separatorMissing (targetDir : String) : Option Bool :=
  match stringIndex targetDir (lengthMinusOne targetDir) with
  | none => none
  | some c =>
    if c != '\\' then
      match stringIndex targetDir (lengthMinusOne targetDir) with
      | none => none
      | some c2 => some (c2 != '/')
    else some false

/-- Lines 33-35: `targetDir += '\\'` when the separator check holds. -/
def normalizeTargetDir (targetDir : String) : Option String :=
  match separatorMissing targetDir with
  | none => none
  | some true => some (targetDir.push '\\')
  | some false => some targetDir

/-- Lines 38-41: the existence check and the creation of the directory.
The first component lists the events of the block, up to and including a
call that throws; the second tells whether control leaves the block
normally (`false` when `exists` or `create_directory` throws).  The value
`create_directory` returns is not read. -/
def ensureDirectory (env : Env) (targetDir : String) : List Event × Bool :=
  match env.fsExists targetDir with
  | none => ([Event.fsExists targetDir], false)
  | some true => ([Event.fsExists targetDir], true)
  | some false =>
    match env.createDirectory targetDir with
    | none =>
      ([Event.fsExists targetDir,
        Event.cout ("Creating directory \"" ++ targetDir ++ "\""),
        Event.createDirectory targetDir], false)
    | some _ =>
      ([Event.fsExists targetDir,
        Event.cout ("Creating directory \"" ++ targetDir ++ "\""),
        Event.createDirectory targetDir], true)

/-- The command line of line 47. -/
def runtimeInstallCommand (emb : Embedded) (targetDir : String) : String :=
  targetDir ++ emb.dotNetRuntimePath ++ " /install /quiet /norestart"

/-- The condition of line 44 on the result of `dotnet --info`. -/
def runtimeAbsent (dotnetinfo : CommandResult) : Bool :=
  dotnetinfo.exitstatus != 0 || (find dotnetinfo.output DotNetVersion).isNone

/-- Lines 43-51: the runtime check, the extraction of the runtime installer
and its invocation. -/
def installRuntime (env : Env) (emb : Embedded) (targetDir : String) : List Event :=
  let dotnetinfo := env.exec "dotnet --info"
  Event.exec "dotnet --info" ::
    (if runtimeAbsent dotnetinfo then
      [Event.cout ("Extracting the .Net Runtime \"" ++ emb.configFilePath ++ "\""),
       Event.extractDotNetRuntime targetDir] ++
      (if emb.dotNetRuntimePath != "" then
        let dotnetinstall := env.exec (runtimeInstallCommand emb targetDir)
        Event.exec (runtimeInstallCommand emb targetDir) ::
          (if dotnetinstall.exitstatus != 0 then
            [Event.cout ".NET Runtime installation failed!"]
          else [])
      else [])
    else [])

/-- Lines 53-56: the extraction of the configuration file. -/
def extractConfig (emb : Embedded) (targetDir : String) : List Event :=
  if emb.configFilePath != "" then
    [Event.cout ("Extracting the service configuration configuration \""
        ++ emb.configFilePath ++ "\""),
     Event.extractConfigFile targetDir]
  else []

/-- Lines 58-59: the extraction of the dependencies. -/
def extractDeps (targetDir : String) : List Event :=
  [Event.cout "Extracting the service dependencies",
   Event.extractDependencies targetDir]

/-- The command line of line 65. -/
def serviceInstallCommand (emb : Embedded) (targetDir : String) : String :=
  targetDir ++ emb.executablePath ++ " install"

/-- Lines 61-66: the extraction of the executable and its `install`
invocation. -/
def installService (emb : Embedded) (targetDir : String) : List Event :=
  if emb.executablePath != "" then
    [Event.cout ("Extracting the service executable \"" ++ emb.executablePath ++ "\""),
     Event.extractExecutable targetDir,
     Event.cout ("Installing \"" ++ emb.executablePath ++ "\"" ++ "service"),
     Event.exec (serviceInstallCommand emb targetDir)]
  else []

/-- The function `main` (lines 28-66).  `none` is a run without defined
behaviour (an out-of-range `operator[]`).  Otherwise the result is the run:
when a filesystem call of lines 38-41 throws, the run ends there, since
`main` catches nothing; else control reaches the end of `main` and the exit
code is `0`. -/
def main (env : Env) (emb : Embedded) (argv : List String) : Option Run :=
  match normalizeTargetDir (initialTargetDir argv) with
  | none => none
  | some targetDir =>
    if (ensureDirectory env targetDir).2 then
      some
        { trace :=
            [Event.cout ("Target directory set to \"" ++ targetDir ++ "\"")]
              ++ (ensureDirectory env targetDir).1
              ++ installRuntime env emb targetDir
              ++ extractConfig emb targetDir
              ++ extractDeps targetDir
              ++ installService emb targetDir
          exitCode := some 0 }
    else
      some
        { trace :=
            [Event.cout ("Target directory set to \"" ++ targetDir ++ "\"")]
              ++ (ensureDirectory env targetDir).1
          exitCode := none }

/-! ## Observations on runs -/

/-- A collaborator call: every event except console output. -/
def Event.isCall : Event → Bool
  | .cout _ => false
  | _ => true

/-- The collaborator calls of a run, in program order. -/
def calls (r : Run) : List Event :=
  r.trace.filter Event.isCall

/-- An invocation of `extractDotNetRuntime`. -/
def Event.isRuntimeExtraction : Event → Bool
  | .extractDotNetRuntime _ => true
  | _ => false

/-- An invocation of `extractConfigFile`. -/
def Event.isConfigExtraction : Event → Bool
  | .extractConfigFile _ => true
  | _ => false

/-- An invocation of `extractDependencies`. -/
def Event.isDependencyExtraction : Event → Bool
  | .extractDependencies _ => true
  | _ => false

/-- An invocation of `extractExecutable`. -/
def Event.isExecutableExtraction : Event → Bool
  | .extractExecutable _ => true
  | _ => false

/-- A runtime install command: an executed command line that ends in
`" /install /quiet /norestart"`. -/
def Event.isRuntimeInstall : Event → Bool
  | .exec commandLine => " /install /quiet /norestart".data.isSuffixOf commandLine.data
  | _ => false

/-- A service install command: an executed command line that ends in
`" install"`. -/
def Event.isServiceInstall : Event → Bool
  | .exec commandLine => " install".data.isSuffixOf commandLine.data
  | _ => false

/-- The directory argument of a filesystem call or of an extractor call. -/
def Event.directory : Event → Option String
  | .fsExists path => some path
  | .createDirectory path => some path
  | .extractDotNetRuntime outputDir => some outputDir
  | .extractConfigFile outputDir => some outputDir
  | .extractDependencies outputDir => some outputDir
  | .extractExecutable outputDir => some outputDir
  | _ => none

/-- The string ends in a path separator, `'\\'` or `'/'`. -/
def endsInSeparator (s : String) : Prop :=
  s.data.getLast? = some '\\' ∨ s.data.getLast? = some '/'

/-- In the trace, `later` occurs at some position after an occurrence of
`earlier`. -/
def invokedAfter (later earlier : Event) : List Event → Bool
  | [] => false
  | e :: rest => (e == earlier && rest.contains later) || invokedAfter later earlier rest

/-- The part of a list of events that follows the first occurrence of `e`
(empty when `e` does not occur). -/
def eventsAfter (e : Event) (t : List Event) : List Event :=
  (t.dropWhile (fun x => x != e)).drop 1

/-- The filesystem calls of lines 38-41 return: `exists` returns `true`, or
it returns `false` and `create_directory` returns. -/
def filesystemCallsReturn (env : Env) (targetDir : String) : Prop :=
  env.fsExists targetDir = some true ∨
    (env.fsExists targetDir = some false ∧ env.createDirectory targetDir ≠ none)

/-! ## Sample inputs -/

/-- A sample environment: the target directory does not exist yet and is
created, and every command, `dotnet --info` included, succeeds and reports runtime 6.0.25. -/
def sampleEnvRuntimePresent : Env where
  fsExists := fun _ => some false
  createDirectory := fun _ => some true
  exec := fun _ => { output := "Microsoft.NETCore.App 6.0.25", exitstatus := 0 }

/-- A sample environment: the target directory exists and every command
fails with exit status `1` and no output. -/
def sampleEnvRuntimeAbsent : Env where
  fsExists := fun _ => some true
  createDirectory := fun _ => some false
  exec := fun _ => { output := "", exitstatus := 1 }

/-- The environment `sampleEnvRuntimeAbsent`, except that the runtime
install command for `C:\Foo\dotnet-runtime.exe` succeeds. -/
def sampleEnvInstallSucceeds : Env where
  fsExists := fun _ => some true
  createDirectory := fun _ => some false
  exec := fun commandLine =>
    if commandLine = "C:\\Foo\\dotnet-runtime.exe /install /quiet /norestart" then
      { output := "", exitstatus := 0 }
    else { output := "", exitstatus := 1 }

/-- A sample environment: the target directory does not exist and cannot be
created (`create_directory` throws, as for a missing parent directory);
every command succeeds and reports runtime 6.0.25. -/
def sampleEnvCreateFails : Env where
  fsExists := fun _ => some false
  createDirectory := fun _ => none
  exec := fun _ => { output := "Microsoft.NETCore.App 6.0.25", exitstatus := 0 }

/-- A build that embeds a runtime installer, a configuration file and the
service executable. -/
def sampleEmbedded : Embedded where
  dotNetRuntimePath := "dotnet-runtime.exe"
  configFilePath := "config.json"
  executablePath := "MqttSql.exe"

/-- A build that embeds nothing, as the declarations of the non-release
branch (lines 13-19). -/
def noEmbedded : Embedded where
  dotNetRuntimePath := ""
  configFilePath := ""
  executablePath := ""

/-- A command line with the target directory `C:\Foo`. -/
def sampleArgv : List String := ["Installer.exe", "C:\\Foo"]

/-! ## Auxiliary facts about strings -/

theorem length_eq_data_length (s : String) : s.length = s.data.length := rfl

theorem length_pos_of_ne_empty (s : String) (hne : s ≠ "") : 0 < s.length := by
  rw [length_eq_data_length]
  rcases hd : s.data with _ | ⟨c, cs⟩
  · exact absurd (String.ext hd) hne
  · simp

theorem lengthMinusOne_empty : lengthMinusOne "" = SIZE_MODULUS - 1 := by decide

theorem lengthMinusOne_lt (s : String) (hne : s ≠ "") : lengthMinusOne s < s.length := by
  have hpos := length_pos_of_ne_empty s hne
  unfold lengthMinusOne SIZE_MODULUS
  omega

theorem lengthMinusOne_eq (s : String) (hlen : s.length < SIZE_MODULUS) (hne : s ≠ "") :
    lengthMinusOne s = s.length - 1 := by
  have hpos := length_pos_of_ne_empty s hne
  unfold lengthMinusOne
  unfold SIZE_MODULUS at *
  omega

theorem stringIndex_last (s : String) (hlen : s.length < SIZE_MODULUS) (hne : s ≠ "") :
    stringIndex s (lengthMinusOne s) = s.data.getLast? := by
  have hpos := length_pos_of_ne_empty s hne
  rw [lengthMinusOne_eq s hlen hne]
  unfold stringIndex
  rw [if_pos (by omega), List.getLast?_eq_getElem?]
  rfl

theorem stringIndex_isSome (s : String) (hne : s ≠ "") :
    ∃ c, stringIndex s (lengthMinusOne s) = some c := by
  have hlt := lengthMinusOne_lt s hne
  unfold stringIndex
  rw [if_pos hlt]
  rw [length_eq_data_length] at hlt
  exact ⟨s.data[lengthMinusOne s], by simp [hlt]⟩

theorem normalizeTargetDir_empty : normalizeTargetDir "" = none := by decide

theorem normalizeTargetDir_defined (s : String) (hne : s ≠ "") :
    ∃ d, normalizeTargetDir s = some d := by
  obtain ⟨c, hc⟩ := stringIndex_isSome s hne
  unfold normalizeTargetDir separatorMissing
  rw [hc]
  by_cases h1 : (c != '\\') = true
  · simp only [h1, if_true]
    by_cases h2 : (c != '/') = true
    · simp [h2]
    · simp [h2]
  · simp [h1]

theorem ne_empty_of_normalizeTargetDir {s d : String} (h : normalizeTargetDir s = some d) :
    s ≠ "" := by
  intro he
  rw [he, normalizeTargetDir_empty] at h
  exact absurd h (by simp)


theorem findFrom_eq_none_iff (pat hay : List Char) (pos : Nat) :
    findFrom pat hay pos = none ↔ ¬ pat <:+: hay := by
  induction hay generalizing pos with
  | nil =>
    unfold findFrom
    by_cases hp : pat.isPrefixOf [] = true
    · have hpre : pat <+: [] := List.isPrefixOf_iff_prefix.mp hp
      simp [hp, hpre.isInfix]
    · have hpre : ¬ pat <+: [] := fun h => hp (List.isPrefixOf_iff_prefix.mpr h)
      have hinf : ¬ pat <:+: [] := by
        intro h
        have hnil : pat = [] := List.infix_nil.mp h
        exact hpre (hnil ▸ List.prefix_rfl)
      simp [hp, hinf]
  | cons c cs ih =>
    unfold findFrom
    by_cases hp : pat.isPrefixOf (c :: cs) = true
    · have hpre : pat <+: c :: cs := List.isPrefixOf_iff_prefix.mp hp
      simp [hp, hpre.isInfix]
    · have hpre : ¬ pat <+: c :: cs := fun h => hp (List.isPrefixOf_iff_prefix.mpr h)
      rw [if_neg hp, ih (pos + 1), List.infix_cons_iff]
      tauto

theorem find_eq_none_iff (s pat : String) :
    find s pat = none ↔ ¬ pat.data <:+: s.data :=
  findFrom_eq_none_iff pat.data s.data 0

theorem runtimeAbsent_iff (dotnetinfo : CommandResult) :
    runtimeAbsent dotnetinfo = true ↔
      (dotnetinfo.exitstatus ≠ 0 ∨ ¬ DotNetVersion.data <:+: dotnetinfo.output.data) := by
  unfold runtimeAbsent
  rw [Bool.or_eq_true, Option.isNone_iff_eq_none, find_eq_none_iff]
  simp

theorem normalizeTargetDir_of_last (s : String) (hlen : s.length < SIZE_MODULUS)
    (hne : s ≠ "") :
    ((s.data.getLast? ≠ some '\\' ∧ s.data.getLast? ≠ some '/') →
        normalizeTargetDir s = some (s ++ "\\")) ∧
    ((s.data.getLast? = some '\\' ∨ s.data.getLast? = some '/') →
        normalizeTargetDir s = some s) := by
  have hidx := stringIndex_last s hlen hne
  obtain ⟨c, hc⟩ := stringIndex_isSome s hne
  have hlast : s.data.getLast? = some c := by rw [← hidx, hc]
  have hpush : s.push '\\' = s ++ "\\" := String.ext (by simp)
  unfold normalizeTargetDir separatorMissing
  rw [hc, hlast]
  constructor
  · rintro ⟨h1, h2⟩
    have h1' : (c != '\\') = true := bne_iff_ne.mpr (fun h => h1 (by rw [h]))
    have h2' : (c != '/') = true := bne_iff_ne.mpr (fun h => h2 (by rw [h]))
    simp only [h1', h2', if_true, hpush]
  · rintro (h | h)
    · have hc1 : c = '\\' := by simpa using h
      simp [hc1]
    · have hc2 : c = '/' := by simpa using h
      simp [hc2]

/-! ## Auxiliary facts about command lines -/

theorem getLast?_eq_of_suffix {p l : List Char} (h : p <:+ l) (hp : p ≠ []) :
    l.getLast? = p.getLast? := by
  obtain ⟨t, rfl⟩ := h
  rw [List.getLast?_append]
  rcases hl : p.getLast? with _ | c
  · exact absurd (List.getLast?_eq_none_iff.mp hl) hp
  · rfl

theorem runtimeInstallCommand_last (emb : Embedded) (d : String) :
    (runtimeInstallCommand emb d).data.getLast? = some 't' := by
  unfold runtimeInstallCommand
  rw [String.data_append, List.getLast?_append]
  rfl

theorem serviceInstallCommand_last (emb : Embedded) (d : String) :
    (serviceInstallCommand emb d).data.getLast? = some 'l' := by
  unfold serviceInstallCommand
  rw [String.data_append, List.getLast?_append]
  rfl

theorem dotnetInfo_ne_runtimeInstallCommand (emb : Embedded) (d : String) :
    "dotnet --info" ≠ runtimeInstallCommand emb d := by
  intro h
  have hl := runtimeInstallCommand_last emb d
  rw [← h] at hl
  exact absurd hl (by decide)

theorem dotnetInfo_ne_serviceInstallCommand (emb : Embedded) (d : String) :
    "dotnet --info" ≠ serviceInstallCommand emb d := by
  intro h
  have hl := serviceInstallCommand_last emb d
  rw [← h] at hl
  exact absurd hl (by decide)

theorem runtimeInstallCommand_ne_serviceInstallCommand (emb : Embedded) (d : String) :
    runtimeInstallCommand emb d ≠ serviceInstallCommand emb d := by
  intro h
  have hl := serviceInstallCommand_last emb d
  rw [← h, runtimeInstallCommand_last] at hl
  exact absurd hl (by decide)

theorem isRuntimeInstall_runtimeInstallCommand (emb : Embedded) (d : String) :
    (Event.exec (runtimeInstallCommand emb d)).isRuntimeInstall = true := by
  unfold Event.isRuntimeInstall
  rw [List.isSuffixOf_iff_suffix]
  unfold runtimeInstallCommand
  rw [String.data_append]
  exact List.suffix_append _ _

theorem isRuntimeInstall_serviceInstallCommand (emb : Embedded) (d : String) :
    (Event.exec (serviceInstallCommand emb d)).isRuntimeInstall = false := by
  rw [Bool.eq_false_iff]
  intro h
  unfold Event.isRuntimeInstall at h
  rw [List.isSuffixOf_iff_suffix] at h
  have hl := getLast?_eq_of_suffix h (by decide)
  rw [serviceInstallCommand_last] at hl
  exact absurd hl (by decide)

theorem isServiceInstall_serviceInstallCommand (emb : Embedded) (d : String) :
    (Event.exec (serviceInstallCommand emb d)).isServiceInstall = true := by
  unfold Event.isServiceInstall
  rw [List.isSuffixOf_iff_suffix]
  unfold serviceInstallCommand
  rw [String.data_append]
  exact List.suffix_append _ _

theorem isServiceInstall_runtimeInstallCommand (emb : Embedded) (d : String) :
    (Event.exec (runtimeInstallCommand emb d)).isServiceInstall = false := by
  rw [Bool.eq_false_iff]
  intro h
  unfold Event.isServiceInstall at h
  rw [List.isSuffixOf_iff_suffix] at h
  have hl := getLast?_eq_of_suffix h (by decide)
  rw [runtimeInstallCommand_last] at hl
  exact absurd hl (by decide)

theorem isRuntimeInstall_dotnetInfo :
    (Event.exec "dotnet --info").isRuntimeInstall = false := by decide

theorem isServiceInstall_dotnetInfo :
    (Event.exec "dotnet --info").isServiceInstall = false := by decide

theorem prefix_runtimeInstallCommand (emb : Embedded) (d : String) :
    d.data <+: (runtimeInstallCommand emb d).data := by
  unfold runtimeInstallCommand
  rw [String.data_append, String.data_append, List.append_assoc]
  exact List.prefix_append _ _

theorem prefix_serviceInstallCommand (emb : Embedded) (d : String) :
    d.data <+: (serviceInstallCommand emb d).data := by
  unfold serviceInstallCommand
  rw [String.data_append, String.data_append, List.append_assoc]
  exact List.prefix_append _ _


/-! ## The shape of a run -/

theorem ensureDirectory_returns_iff (env : Env) (d : String) :
    (ensureDirectory env d).2 = true ↔ filesystemCallsReturn env d := by
  unfold ensureDirectory filesystemCallsReturn
  rcases h1 : env.fsExists d with _ | b
  · simp
  · cases b
    · rcases h2 : env.createDirectory d with _ | c <;> simp
    · simp

/-- The run of `main` for a target directory that normalizes to `d`, when
the filesystem calls return. -/
theorem main_eq (env : Env) (emb : Embedded) (argv : List String) (d : String)
    (hnorm : normalizeTargetDir (initialTargetDir argv) = some d)
    (hfs : filesystemCallsReturn env d) :
    main env emb argv = some
      { trace :=
          [Event.cout ("Target directory set to \"" ++ d ++ "\"")]
            ++ (ensureDirectory env d).1
            ++ installRuntime env emb d
            ++ extractConfig emb d
            ++ extractDeps d
            ++ installService emb d
        exitCode := some 0 } := by
  unfold main
  rw [hnorm]
  simp only [(ensureDirectory_returns_iff env d).mpr hfs, if_true]

/-- The run of `main` for a target directory that normalizes to `d`, when a
filesystem call throws. -/
theorem main_eq_of_throw (env : Env) (emb : Embedded) (argv : List String) (d : String)
    (hnorm : normalizeTargetDir (initialTargetDir argv) = some d)
    (hfs : ¬ filesystemCallsReturn env d) :
    main env emb argv = some
      { trace :=
          [Event.cout ("Target directory set to \"" ++ d ++ "\"")]
            ++ (ensureDirectory env d).1
        exitCode := none } := by
  have h2 : (ensureDirectory env d).2 = false := by
    rw [← Bool.not_eq_true, ensureDirectory_returns_iff]
    exact hfs
  unfold main
  rw [hnorm]
  simp only [h2, Bool.false_eq_true, if_false]

theorem mem_ensureDirectory (env : Env) (d : String) (e : Event) :
    e ∈ (ensureDirectory env d).1 ↔
      e = Event.fsExists d ∨
      (env.fsExists d = some false ∧
        (e = Event.cout ("Creating directory \"" ++ d ++ "\"") ∨
         e = Event.createDirectory d)) := by
  unfold ensureDirectory
  rcases h1 : env.fsExists d with _ | b
  · simp
  · cases b
    · rcases h2 : env.createDirectory d with _ | c <;> simp
    · simp

theorem mem_installRuntime (env : Env) (emb : Embedded) (d : String) (e : Event) :
    e ∈ installRuntime env emb d ↔
      e = Event.exec "dotnet --info" ∨
      (runtimeAbsent (env.exec "dotnet --info") = true ∧
        (e = Event.cout ("Extracting the .Net Runtime \"" ++ emb.configFilePath ++ "\"") ∨
         e = Event.extractDotNetRuntime d ∨
         (emb.dotNetRuntimePath ≠ "" ∧
           (e = Event.exec (runtimeInstallCommand emb d) ∨
            ((env.exec (runtimeInstallCommand emb d)).exitstatus ≠ 0 ∧
              e = Event.cout ".NET Runtime installation failed!"))))) := by
  unfold installRuntime
  by_cases h1 : runtimeAbsent (env.exec "dotnet --info") = true
  · by_cases h2 : emb.dotNetRuntimePath = ""
    · simp [h1, h2]
    · by_cases h3 : (env.exec (runtimeInstallCommand emb d)).exitstatus = 0
      · simp [h1, h2, h3]
      · simp [h1, h2, h3]
  · simp [h1]

theorem mem_extractConfig (emb : Embedded) (d : String) (e : Event) :
    e ∈ extractConfig emb d ↔
      emb.configFilePath ≠ "" ∧
        (e = Event.cout ("Extracting the service configuration configuration \""
            ++ emb.configFilePath ++ "\"") ∨
         e = Event.extractConfigFile d) := by
  unfold extractConfig
  by_cases h : emb.configFilePath = "" <;> simp [h]

theorem mem_extractDeps (d : String) (e : Event) :
    e ∈ extractDeps d ↔
      e = Event.cout "Extracting the service dependencies" ∨
      e = Event.extractDependencies d := by
  unfold extractDeps
  simp

theorem mem_installService (emb : Embedded) (d : String) (e : Event) :
    e ∈ installService emb d ↔
      emb.executablePath ≠ "" ∧
        (e = Event.cout ("Extracting the service executable \"" ++ emb.executablePath ++ "\"") ∨
         e = Event.extractExecutable d ∨
         e = Event.cout ("Installing \"" ++ emb.executablePath ++ "\"" ++ "service") ∨
         e = Event.exec (serviceInstallCommand emb d)) := by
  unfold installService
  by_cases h : emb.executablePath = "" <;> simp [h]


/-- A run whose target directory has no defined normalization has no
defined behaviour. -/
theorem main_undefined (env : Env) (emb : Embedded) (argv : List String)
    (h : normalizeTargetDir (initialTargetDir argv) = none) : main env emb argv = none := by
  unfold main
  rw [h]


theorem filter_eq_nil_of_forall (p : Event → Bool) (l : List Event)
    (h : ∀ e ∈ l, p e = false) : l.filter p = [] := by
  rw [List.filter_eq_nil_iff]
  intro e he
  rw [h e he]
  simp

/-- Every event before the `installService` block is console output or one
of the calls listed. -/
theorem mem_before_installService (env : Env) (emb : Embedded) (d : String) (e : Event)
    (he : e ∈ [Event.cout ("Target directory set to \"" ++ d ++ "\"")]
            ++ (ensureDirectory env d).1
            ++ installRuntime env emb d
            ++ extractConfig emb d
            ++ extractDeps d) :
    e.isCall = false ∨ e = Event.fsExists d ∨ e = Event.createDirectory d ∨
      e = Event.exec "dotnet --info" ∨ e = Event.extractDotNetRuntime d ∨
      e = Event.exec (runtimeInstallCommand emb d) ∨ e = Event.extractConfigFile d ∨
      e = Event.extractDependencies d := by
  simp only [List.mem_append, List.mem_singleton, mem_ensureDirectory, mem_installRuntime,
    mem_extractConfig, mem_extractDeps] at he
  rcases he with (((rfl | rfl | ⟨-, rfl | rfl⟩) | rfl | ⟨-, rfl | rfl | ⟨-, rfl | ⟨-, rfl⟩⟩⟩) |
    ⟨-, rfl | rfl⟩) | rfl | rfl
  all_goals simp [Event.isCall]

/-- Every event of the `installService` block is console output or one of
the two calls listed. -/
theorem mem_installService_cases (emb : Embedded) (d : String) (e : Event)
    (he : e ∈ installService emb d) :
    e.isCall = false ∨ e = Event.extractExecutable d ∨
      e = Event.exec (serviceInstallCommand emb d) := by
  rw [mem_installService] at he
  rcases he with ⟨-, rfl | rfl | rfl | rfl⟩
  all_goals simp [Event.isCall]

/-! ## Filters of the blocks of `main` -/

theorem filter_ensureDirectory (p : Event → Bool) (env : Env) (d : String)
    (hcout : ∀ line, p (Event.cout line) = false)
    (h1 : p (Event.fsExists d) = false) (h2 : p (Event.createDirectory d) = false) :
    (ensureDirectory env d).1.filter p = [] := by
  apply filter_eq_nil_of_forall
  intro e he
  rw [mem_ensureDirectory] at he
  rcases he with rfl | ⟨-, rfl | rfl⟩
  · exact h1
  · exact hcout _
  · exact h2

theorem filter_extractConfig (p : Event → Bool) (emb : Embedded) (d : String)
    (hcout : ∀ line, p (Event.cout line) = false) :
    (extractConfig emb d).filter p =
      if emb.configFilePath != "" ∧ p (Event.extractConfigFile d) = true
      then [Event.extractConfigFile d] else [] := by
  unfold extractConfig
  by_cases h : emb.configFilePath = ""
  · simp [h]
  · by_cases hp : p (Event.extractConfigFile d) = true
    · simp [h, hp, hcout, List.filter]
    · simp [h, hp, hcout, List.filter]

theorem filter_extractDeps (p : Event → Bool) (d : String)
    (hcout : ∀ line, p (Event.cout line) = false) :
    (extractDeps d).filter p =
      if p (Event.extractDependencies d) = true then [Event.extractDependencies d] else [] := by
  unfold extractDeps
  by_cases hp : p (Event.extractDependencies d) = true
  · simp [hp, hcout, List.filter]
  · simp [hp, hcout, List.filter]

theorem filter_installRuntime_present (p : Event → Bool) (env : Env) (emb : Embedded)
    (d : String) (hpresent : runtimeAbsent (env.exec "dotnet --info") = false) :
    (installRuntime env emb d).filter p = [Event.exec "dotnet --info"].filter p := by
  unfold installRuntime
  simp [hpresent]

theorem filter_installRuntime_absent (p : Event → Bool) (env : Env) (emb : Embedded)
    (d : String) (hcout : ∀ line, p (Event.cout line) = false)
    (habsent : runtimeAbsent (env.exec "dotnet --info") = true) :
    (installRuntime env emb d).filter p =
      [Event.exec "dotnet --info", Event.extractDotNetRuntime d].filter p ++
        (if emb.dotNetRuntimePath != "" then
          [Event.exec (runtimeInstallCommand emb d)].filter p else []) := by
  unfold installRuntime
  by_cases h2 : emb.dotNetRuntimePath = ""
  · simp [habsent, h2, hcout, List.filter_cons]
  · by_cases h3 : (env.exec (runtimeInstallCommand emb d)).exitstatus = 0
    · simp only [habsent, h2, h3, hcout, List.filter_cons, bne_iff_ne, ne_eq, not_false_eq_true,
        if_true, List.filter_nil, List.cons_append, List.nil_append, bne_self_eq_false,
        Bool.false_eq_true, if_false]
      split_ifs <;> simp
    · simp only [habsent, h2, h3, hcout, List.filter_cons, bne_iff_ne, ne_eq, not_false_eq_true,
        if_true, List.filter_nil, List.cons_append, List.nil_append,
        Bool.false_eq_true, if_false]
      split_ifs <;> simp

theorem filter_installService (p : Event → Bool) (emb : Embedded) (d : String)
    (hcout : ∀ line, p (Event.cout line) = false) :
    (installService emb d).filter p =
      if emb.executablePath != "" then
        [Event.extractExecutable d, Event.exec (serviceInstallCommand emb d)].filter p
      else [] := by
  unfold installService
  by_cases h : emb.executablePath = ""
  · simp [h]
  · simp [h, hcout, List.filter]

/-! ## Order of events -/

theorem invokedAfter_iff (later earlier : Event) (t : List Event) :
    invokedAfter later earlier t = true ↔
      ∃ pre post, t = pre ++ earlier :: post ∧ later ∈ post := by
  induction t with
  | nil =>
    constructor
    · intro h
      exact absurd h (by simp [invokedAfter])
    · rintro ⟨pre, post, h, -⟩
      exact absurd h (by simp)
  | cons e rest ih =>
    unfold invokedAfter
    rw [Bool.or_eq_true, Bool.and_eq_true, ih]
    constructor
    · rintro (⟨h1, h2⟩ | ⟨pre, post, h, hmem⟩)
      · have he : e = earlier := by simpa using h1
        have hl : later ∈ rest := by simpa using h2
        exact ⟨[], rest, by simp [he], hl⟩
      · exact ⟨e :: pre, post, by simp [h], hmem⟩
    · rintro ⟨pre, post, h, hmem⟩
      cases pre with
      | nil =>
        left
        simp only [List.nil_append, List.cons.injEq] at h
        obtain ⟨h1, h2⟩ := h
        subst h1 h2
        simpa using hmem
      | cons x pre2 =>
        right
        simp only [List.cons_append, List.cons.injEq] at h
        exact ⟨pre2, post, h.2, hmem⟩

theorem invokedAfter_of_mem (later earlier : Event) (l1 l2 : List Event)
    (h1 : earlier ∈ l1) (h2 : later ∈ l2) :
    invokedAfter later earlier (l1 ++ l2) = true := by
  rw [invokedAfter_iff]
  obtain ⟨pre, post, rfl⟩ := List.append_of_mem h1
  exact ⟨pre, post ++ l2, by simp, List.mem_append_right _ h2⟩

theorem invokedAfter_append_left (later earlier : Event) (l1 l2 : List Event)
    (h : invokedAfter later earlier l1 = true) :
    invokedAfter later earlier (l1 ++ l2) = true := by
  rw [invokedAfter_iff] at h ⊢
  obtain ⟨pre, post, rfl, hmem⟩ := h
  exact ⟨pre, post ++ l2, by simp, List.mem_append_left _ hmem⟩

theorem invokedAfter_append_right (later earlier : Event) (l1 l2 : List Event)
    (h : invokedAfter later earlier l2 = true) :
    invokedAfter later earlier (l1 ++ l2) = true := by
  rw [invokedAfter_iff] at h ⊢
  obtain ⟨pre, post, rfl, hmem⟩ := h
  exact ⟨l1 ++ pre, post, by simp, hmem⟩

theorem invokedAfter_installRuntime (env : Env) (emb : Embedded) (d : String)
    (habsent : runtimeAbsent (env.exec "dotnet --info") = true)
    (hpath : emb.dotNetRuntimePath ≠ "") :
    invokedAfter (Event.exec (runtimeInstallCommand emb d)) (Event.extractDotNetRuntime d)
      (installRuntime env emb d) = true := by
  rw [invokedAfter_iff]
  refine ⟨[Event.exec "dotnet --info",
      Event.cout ("Extracting the .Net Runtime \"" ++ emb.configFilePath ++ "\"")],
    Event.exec (runtimeInstallCommand emb d) ::
      (if (env.exec (runtimeInstallCommand emb d)).exitstatus != 0 then
        [Event.cout ".NET Runtime installation failed!"] else []), ?_, by simp⟩
  unfold installRuntime
  simp [habsent, hpath]

/-- The events of a run, block by block, filtered by a predicate that
rejects console output. -/
theorem filter_blocks (p : Event → Bool) (env : Env) (emb : Embedded) (d : String)
    (hcout : ∀ line, p (Event.cout line) = false) :
    ([Event.cout ("Target directory set to \"" ++ d ++ "\"")]
        ++ (ensureDirectory env d).1
        ++ installRuntime env emb d
        ++ extractConfig emb d
        ++ extractDeps d
        ++ installService emb d).filter p =
      (ensureDirectory env d).1.filter p ++ (installRuntime env emb d).filter p
        ++ (extractConfig emb d).filter p ++ (extractDeps d).filter p
        ++ (installService emb d).filter p := by
  simp [List.filter_append, List.filter_cons, hcout]

theorem not_extraction_of_not_isCall (e : Event) (h : e.isCall = false) :
    e.isRuntimeExtraction = false ∧ e.isConfigExtraction = false ∧
      e.isDependencyExtraction = false ∧ e.isExecutableExtraction = false ∧
      e.isRuntimeInstall = false ∧ e.isServiceInstall = false ∧ e.directory = none ∧
      ∀ commandLine, e ≠ Event.exec commandLine := by
  cases e <;> simp_all [Event.isCall, Event.isRuntimeExtraction, Event.isConfigExtraction,
    Event.isDependencyExtraction, Event.isExecutableExtraction, Event.isRuntimeInstall,
    Event.isServiceInstall, Event.directory]

/-- The runtime install commands of a run: one when the runtime check fails
and a runtime installer is embedded, none otherwise. -/
theorem filter_isRuntimeInstall_blocks (env : Env) (emb : Embedded) (d : String) :
    ([Event.cout ("Target directory set to \"" ++ d ++ "\"")]
        ++ (ensureDirectory env d).1
        ++ installRuntime env emb d
        ++ extractConfig emb d
        ++ extractDeps d
        ++ installService emb d).filter Event.isRuntimeInstall =
      if runtimeAbsent (env.exec "dotnet --info") = true ∧ emb.dotNetRuntimePath ≠ "" then
        [Event.exec (runtimeInstallCommand emb d)]
      else [] := by
  have hsvc := isRuntimeInstall_serviceInstallCommand emb d
  have hrt := isRuntimeInstall_runtimeInstallCommand emb d
  have hdn : (Event.exec "dotnet --info").isRuntimeInstall = false := rfl
  have h1 : (Event.extractDotNetRuntime d).isRuntimeInstall = false := rfl
  have h2 : (Event.extractConfigFile d).isRuntimeInstall = false := rfl
  have h3 : (Event.extractDependencies d).isRuntimeInstall = false := rfl
  have h4 : (Event.extractExecutable d).isRuntimeInstall = false := rfl
  rw [filter_blocks _ env emb d (fun _ => rfl),
    filter_ensureDirectory _ env d (fun _ => rfl) rfl rfl,
    filter_extractConfig _ emb d (fun _ => rfl),
    filter_extractDeps _ d (fun _ => rfl),
    filter_installService _ emb d (fun _ => rfl)]
  by_cases habsent : runtimeAbsent (env.exec "dotnet --info") = true
  · rw [filter_installRuntime_absent _ env emb d (fun _ => rfl) habsent]
    by_cases hpath : emb.dotNetRuntimePath = ""
    · simp [List.filter_cons, hdn, h1, h2, h3, h4, hsvc, hpath, habsent]
    · simp [List.filter_cons, hdn, h1, h2, h3, h4, hsvc, hrt, hpath, habsent]
  · have hpresent : runtimeAbsent (env.exec "dotnet --info") = false := by simpa using habsent
    rw [filter_installRuntime_present _ env emb d hpresent]
    simp [List.filter_cons, hdn, h2, h3, h4, hsvc, hpresent]

theorem filter_isCall_ensureDirectory (env : Env) (d : String) :
    (ensureDirectory env d).1.filter Event.isCall =
      Event.fsExists d ::
        (if env.fsExists d = some false then [Event.createDirectory d] else []) := by
  unfold ensureDirectory
  rcases h1 : env.fsExists d with _ | b
  · simp [List.filter_cons, Event.isCall]
  · cases b
    · rcases h2 : env.createDirectory d with _ | c <;>
        simp [List.filter_cons, Event.isCall]
    · simp [List.filter_cons, Event.isCall]

/-- The collaborator calls of a completed run, as a function of the answer
of the existence check and of the outcome of the runtime check only. -/
theorem filter_isCall_blocks (env : Env) (emb : Embedded) (d : String) :
    ([Event.cout ("Target directory set to \"" ++ d ++ "\"")]
        ++ (ensureDirectory env d).1
        ++ installRuntime env emb d
        ++ extractConfig emb d
        ++ extractDeps d
        ++ installService emb d).filter Event.isCall =
      (Event.fsExists d ::
          (if env.fsExists d = some false then [Event.createDirectory d] else []))
        ++ (Event.exec "dotnet --info" ::
            (if runtimeAbsent (env.exec "dotnet --info") = true then
              Event.extractDotNetRuntime d ::
                (if emb.dotNetRuntimePath ≠ "" then
                  [Event.exec (runtimeInstallCommand emb d)] else [])
            else []))
        ++ (if emb.configFilePath ≠ "" then [Event.extractConfigFile d] else [])
        ++ [Event.extractDependencies d]
        ++ (if emb.executablePath ≠ "" then
            [Event.extractExecutable d, Event.exec (serviceInstallCommand emb d)] else []) := by
  rw [filter_blocks _ env emb d (fun _ => rfl),
    filter_extractConfig _ emb d (fun _ => rfl),
    filter_extractDeps _ d (fun _ => rfl),
    filter_installService _ emb d (fun _ => rfl)]
  have hens := filter_isCall_ensureDirectory env d
  have hrt : (installRuntime env emb d).filter Event.isCall =
      Event.exec "dotnet --info" ::
        (if runtimeAbsent (env.exec "dotnet --info") = true then
          Event.extractDotNetRuntime d ::
            (if emb.dotNetRuntimePath ≠ "" then
              [Event.exec (runtimeInstallCommand emb d)] else [])
        else []) := by
    by_cases habsent : runtimeAbsent (env.exec "dotnet --info") = true
    · rw [filter_installRuntime_absent _ env emb d (fun _ => rfl) habsent]
      by_cases hpath : emb.dotNetRuntimePath = ""
      · simp [List.filter_cons, Event.isCall, habsent, hpath]
      · simp [List.filter_cons, Event.isCall, habsent, hpath]
    · have hpresent : runtimeAbsent (env.exec "dotnet --info") = false := by simpa using habsent
      rw [filter_installRuntime_present _ env emb d hpresent]
      simp [List.filter_cons, Event.isCall, hpresent]
  rw [hens, hrt]
  by_cases hcfg : emb.configFilePath = "" <;> by_cases hexe : emb.executablePath = "" <;>
    simp [List.filter_cons, Event.isCall, hcfg, hexe]

theorem endsInSeparator_of_normalizeTargetDir (s d : String)
    (hlen : s.length < SIZE_MODULUS) (hnorm : normalizeTargetDir s = some d) :
    endsInSeparator d := by
  have hne := ne_empty_of_normalizeTargetDir hnorm
  obtain ⟨happ, hkeep⟩ := normalizeTargetDir_of_last s hlen hne
  by_cases hsep : s.data.getLast? = some '\\' ∨ s.data.getLast? = some '/'
  · have hd : d = s := by
      have := hkeep hsep
      rw [hnorm] at this
      exact Option.some.inj this
    rw [hd]
    exact hsep
  · have hd : d = s ++ "\\" := by
      have := happ ⟨fun h => hsep (Or.inl h), fun h => hsep (Or.inr h)⟩
      rw [hnorm] at this
      exact Option.some.inj this
    left
    rw [hd, String.data_append, List.getLast?_append]
    rfl

/-! ## Runs ended by a filesystem exception -/

/-- The events of a run are events of the run that completes. -/
theorem main_trace_subset (env : Env) (emb : Embedded) (argv : List String) (d : String)
    (hnorm : normalizeTargetDir (initialTargetDir argv) = some d) :
    ∃ r, main env emb argv = some r ∧
      ∀ e ∈ r.trace, e ∈ [Event.cout ("Target directory set to \"" ++ d ++ "\"")]
            ++ (ensureDirectory env d).1
            ++ installRuntime env emb d
            ++ extractConfig emb d
            ++ extractDeps d
            ++ installService emb d := by
  by_cases hfs : filesystemCallsReturn env d
  · exact ⟨_, main_eq env emb argv d hnorm hfs, fun e he => he⟩
  · refine ⟨_, main_eq_of_throw env emb argv d hnorm hfs, fun e he => ?_⟩
    simp only [List.append_assoc]
    simp only [List.mem_append] at he ⊢
    rcases he with he | he
    · exact Or.inl he
    · exact Or.inr (Or.inl he)

/-- Every event of a run ended by a filesystem exception is console output,
the existence check or the directory creation. -/
theorem mem_of_throw (env : Env) (d : String) (e : Event)
    (he : e ∈ [Event.cout ("Target directory set to \"" ++ d ++ "\"")]
            ++ (ensureDirectory env d).1) :
    e.isCall = false ∨ e = Event.fsExists d ∨ e = Event.createDirectory d := by
  simp only [List.mem_append, List.mem_singleton, mem_ensureDirectory] at he
  rcases he with rfl | rfl | ⟨-, rfl | rfl⟩
  all_goals simp [Event.isCall]

theorem exec_not_mem_of_throw (env : Env) (d : String) (commandLine : String) :
    Event.exec commandLine ∉ [Event.cout ("Target directory set to \"" ++ d ++ "\"")]
            ++ (ensureDirectory env d).1 := by
  intro he
  rcases mem_of_throw env d _ he with h | h | h
  · exact absurd h (by simp [Event.isCall])
  · exact Event.noConfusion h
  · exact Event.noConfusion h

/-- A run executes `dotnet --info` exactly when the filesystem calls before
it return. -/
theorem dotnetInfo_executed_iff (env : Env) (emb : Embedded) (argv : List String)
    (d : String) (hnorm : normalizeTargetDir (initialTargetDir argv) = some d)
    (r : Run) (hr : main env emb argv = some r) :
    Event.exec "dotnet --info" ∈ r.trace ↔ filesystemCallsReturn env d := by
  by_cases hfs : filesystemCallsReturn env d
  · rw [main_eq env emb argv d hnorm hfs] at hr
    have hr2 := Option.some.inj hr
    subst hr2
    simp [hfs, mem_installRuntime]
  · rw [main_eq_of_throw env emb argv d hnorm hfs] at hr
    have hr2 := Option.some.inj hr
    subst hr2
    simp only [hfs, iff_false]
    exact exec_not_mem_of_throw env d _

/-! ## Verified properties -/

/-- C1: for a non-empty target directory whose last character is neither
`'\\'` nor `'/'`, normalization yields the input with exactly one `'\\'`
appended; for a non-empty target directory whose last character is `'\\'` or
`'/'`, normalization yields the input unchanged.  (`hlen` is the bound every
`std::string` satisfies: its size is a `size_t`.) -/
theorem normalization_appends_one_separator (targetDir : String)
    (hlen : targetDir.length < SIZE_MODULUS) (hne : targetDir ≠ "") :
    ((targetDir.data.getLast? ≠ some '\\' ∧ targetDir.data.getLast? ≠ some '/') →
        normalizeTargetDir targetDir = some (targetDir ++ "\\")) ∧
    ((targetDir.data.getLast? = some '\\' ∨ targetDir.data.getLast? = some '/') →
        normalizeTargetDir targetDir = some targetDir) :=
  normalizeTargetDir_of_last targetDir hlen hne

/-- Witness for C1: `"C:\\Foo"` gains one separator and `"C:\\Foo\\"` stays
unchanged. -/
theorem normalization_appends_one_separator_witness :
    normalizeTargetDir "C:\\Foo" = some "C:\\Foo\\" ∧
      normalizeTargetDir "C:\\Foo\\" = some "C:\\Foo\\" :=
  ⟨(normalization_appends_one_separator "C:\\Foo" (by decide) (by decide)).1 (by decide),
    (normalization_appends_one_separator "C:\\Foo\\" (by decide) (by decide)).2
      (Or.inl (by decide))⟩

/-- C2: in a run with a non-empty target directory in which `dotnet --info`
returns exit status `0` and output containing `"6.0.2"`, the runtime
extractor is never invoked and no command ending in
`" /install /quiet /norestart"` is executed. -/
theorem runtime_present_skips_install (env : Env) (emb : Embedded) (argv : List String)
    (hne : initialTargetDir argv ≠ "")
    (hexit : (env.exec "dotnet --info").exitstatus = 0)
    (hver : DotNetVersion.data <:+: (env.exec "dotnet --info").output.data) :
    ∃ r, main env emb argv = some r ∧
      ∀ e ∈ r.trace, e.isRuntimeExtraction = false ∧ e.isRuntimeInstall = false := by
  obtain ⟨d, hnorm⟩ := normalizeTargetDir_defined _ hne
  have hpresent : ¬ runtimeAbsent (env.exec "dotnet --info") = true := by
    rw [runtimeAbsent_iff]
    rintro (h | h)
    · exact h hexit
    · exact h hver
  obtain ⟨r, hr, hsub⟩ := main_trace_subset env emb argv d hnorm
  refine ⟨r, hr, ?_⟩
  intro e he
  have he := hsub e he
  simp only [List.mem_append, List.mem_singleton, mem_ensureDirectory, mem_installRuntime,
    mem_extractConfig, mem_extractDeps, mem_installService] at he
  rcases he with ((((rfl | rfl | ⟨-, rfl | rfl⟩) | rfl | ⟨h, -⟩) | ⟨-, rfl | rfl⟩) | rfl | rfl) |
    ⟨-, rfl | rfl | rfl | rfl⟩
  all_goals first
    | exact ⟨rfl, rfl⟩
    | exact absurd h hpresent
    | exact ⟨rfl, isRuntimeInstall_serviceInstallCommand emb d⟩

/-- Witness for C2: the sample run in which `dotnet --info` succeeds and
reports runtime 6.0.25. -/
theorem runtime_present_skips_install_witness :
    (initialTargetDir sampleArgv ≠ "" ∧
      (sampleEnvRuntimePresent.exec "dotnet --info").exitstatus = 0 ∧
      DotNetVersion.data <:+: (sampleEnvRuntimePresent.exec "dotnet --info").output.data) ∧
    ∃ r, main sampleEnvRuntimePresent sampleEmbedded sampleArgv = some r ∧
      ∀ e ∈ r.trace, e.isRuntimeExtraction = false ∧ e.isRuntimeInstall = false :=
  ⟨⟨by decide, by decide, by decide⟩,
    runtime_present_skips_install sampleEnvRuntimePresent sampleEmbedded sampleArgv
      (by decide) (by decide) (by decide)⟩

/-- C5 as stated fails: when the target directory cannot be created,
`create_directory` throws, nothing catches the exception, and the run ends
before the dependency extractor is invoked. -/
theorem dependencies_not_extracted_when_create_directory_throws :
    ∃ r, main sampleEnvCreateFails sampleEmbedded sampleArgv = some r ∧
      r.trace.filter Event.isDependencyExtraction = [] ∧ r.exitCode = none :=
  ⟨_, rfl, by decide, by decide⟩

/-- C5 amended: in every run (target directory normalizing to `d`) in which
the existence check and the directory creation return, whatever they
answer, whatever the results of the external commands and whatever the
embedded paths, the dependency extractor is invoked exactly once, and its
argument is `d`. -/
theorem dependencies_extracted_exactly_once (env : Env) (emb : Embedded)
    (argv : List String) (d : String)
    (hnorm : normalizeTargetDir (initialTargetDir argv) = some d)
    (hfs : filesystemCallsReturn env d) :
    ∃ r, main env emb argv = some r ∧
      r.trace.filter Event.isDependencyExtraction = [Event.extractDependencies d] := by
  refine ⟨_, main_eq env emb argv d hnorm hfs, ?_⟩
  have hpre : ([Event.cout ("Target directory set to \"" ++ d ++ "\"")]
            ++ (ensureDirectory env d).1
            ++ installRuntime env emb d
            ++ extractConfig emb d).filter Event.isDependencyExtraction = [] := by
    apply filter_eq_nil_of_forall
    intro e he
    simp only [List.mem_append, List.mem_singleton, mem_ensureDirectory, mem_installRuntime,
      mem_extractConfig] at he
    rcases he with ((rfl | rfl | ⟨-, rfl | rfl⟩) |
        rfl | ⟨-, rfl | rfl | ⟨-, rfl | ⟨-, rfl⟩⟩⟩) | ⟨-, rfl | rfl⟩
    all_goals rfl
  have hpost : (installService emb d).filter Event.isDependencyExtraction = [] := by
    apply filter_eq_nil_of_forall
    intro e he
    rw [mem_installService] at he
    rcases he with ⟨-, rfl | rfl | rfl | rfl⟩
    all_goals rfl
  show ((([Event.cout ("Target directory set to \"" ++ d ++ "\"")]
            ++ (ensureDirectory env d).1
            ++ installRuntime env emb d
            ++ extractConfig emb d)
            ++ extractDeps d)
            ++ installService emb d).filter Event.isDependencyExtraction = _
  rw [List.filter_append, List.filter_append, hpre, hpost]
  rfl

/-- Witness for the amended C5: the sample run with nothing embedded and the
default target directory, which exists. -/
theorem dependencies_extracted_exactly_once_witness :
    normalizeTargetDir (initialTargetDir ["Installer.exe"])
        = some "C:\\Program Files\\MqttSql\\" ∧
    filesystemCallsReturn sampleEnvRuntimeAbsent "C:\\Program Files\\MqttSql\\" ∧
    ∃ r, main sampleEnvRuntimeAbsent noEmbedded ["Installer.exe"] = some r ∧
      r.trace.filter Event.isDependencyExtraction =
        [Event.extractDependencies "C:\\Program Files\\MqttSql\\"] :=
  ⟨by decide, Or.inl rfl,
    dependencies_extracted_exactly_once sampleEnvRuntimeAbsent noEmbedded ["Installer.exe"]
      "C:\\Program Files\\MqttSql\\" (by decide) (Or.inl rfl)⟩

/-- C3: in every run (target directory normalizing to `d`) in which
`dotnet --info` is executed and returns a non-zero exit status or output
that does not contain `"6.0.2"`, the runtime extractor is invoked exactly once, with `d`;
if `dotNetRuntimePath` is non-empty, exactly one install command is
executed, its command line is `d` followed by the path followed by
`" /install /quiet /norestart"`, and it comes after the extraction; if the
path is empty, no install command is executed. -/
theorem runtime_absent_extracts_and_installs (env : Env) (emb : Embedded)
    (argv : List String) (d : String)
    (hnorm : normalizeTargetDir (initialTargetDir argv) = some d)
    (hfail : (env.exec "dotnet --info").exitstatus ≠ 0 ∨
      ¬ DotNetVersion.data <:+: (env.exec "dotnet --info").output.data) :
    ∃ r, main env emb argv = some r ∧
      (Event.exec "dotnet --info" ∈ r.trace →
        r.trace.filter Event.isRuntimeExtraction = [Event.extractDotNetRuntime d] ∧
        (emb.dotNetRuntimePath ≠ "" →
          r.trace.filter Event.isRuntimeInstall =
            [Event.exec (d ++ emb.dotNetRuntimePath ++ " /install /quiet /norestart")] ∧
          invokedAfter
            (Event.exec (d ++ emb.dotNetRuntimePath ++ " /install /quiet /norestart"))
            (Event.extractDotNetRuntime d) r.trace = true) ∧
        (emb.dotNetRuntimePath = "" → r.trace.filter Event.isRuntimeInstall = [])) := by
  have habsent : runtimeAbsent (env.exec "dotnet --info") = true :=
    (runtimeAbsent_iff _).mpr hfail
  have hsvc := isRuntimeInstall_serviceInstallCommand emb d
  have hrt := isRuntimeInstall_runtimeInstallCommand emb d
  by_cases hfs : filesystemCallsReturn env d
  swap
  · exact ⟨_, main_eq_of_throw env emb argv d hnorm hfs,
      fun hmem => absurd hmem (exec_not_mem_of_throw env d _)⟩
  refine ⟨_, main_eq env emb argv d hnorm hfs, fun _ => ⟨?_, ?_, ?_⟩⟩
  · show List.filter Event.isRuntimeExtraction _ = _
    rw [filter_blocks _ env emb d (fun _ => rfl),
      filter_ensureDirectory _ env d (fun _ => rfl) rfl rfl,
      filter_installRuntime_absent _ env emb d (fun _ => rfl) habsent,
      filter_extractConfig _ emb d (fun _ => rfl),
      filter_extractDeps _ d (fun _ => rfl),
      filter_installService _ emb d (fun _ => rfl)]
    simp [Event.isRuntimeExtraction, List.filter_cons]
  · intro hpath
    constructor
    · show List.filter Event.isRuntimeInstall _ = _
      rw [filter_blocks _ env emb d (fun _ => rfl),
        filter_ensureDirectory _ env d (fun _ => rfl) rfl rfl,
        filter_installRuntime_absent _ env emb d (fun _ => rfl) habsent,
        filter_extractConfig _ emb d (fun _ => rfl),
        filter_extractDeps _ d (fun _ => rfl),
        filter_installService _ emb d (fun _ => rfl)]
      have hdn : (Event.exec "dotnet --info").isRuntimeInstall = false := rfl
      have h1 : (Event.extractDotNetRuntime d).isRuntimeInstall = false := rfl
      have h2 : (Event.extractConfigFile d).isRuntimeInstall = false := rfl
      have h3 : (Event.extractDependencies d).isRuntimeInstall = false := rfl
      have h4 : (Event.extractExecutable d).isRuntimeInstall = false := rfl
      simp only [List.filter_cons, List.filter_nil, hdn, h1, h2, h3, h4, hsvc, hrt, hpath]
      simp [runtimeInstallCommand, hpath]
    · show invokedAfter _ _ _ = true
      apply invokedAfter_append_left
      apply invokedAfter_append_left
      apply invokedAfter_append_left
      apply invokedAfter_append_right
      exact invokedAfter_installRuntime env emb d habsent hpath
  · intro hpath
    show List.filter Event.isRuntimeInstall _ = _
    rw [filter_blocks _ env emb d (fun _ => rfl),
      filter_ensureDirectory _ env d (fun _ => rfl) rfl rfl,
      filter_installRuntime_absent _ env emb d (fun _ => rfl) habsent,
      filter_extractConfig _ emb d (fun _ => rfl),
      filter_extractDeps _ d (fun _ => rfl),
      filter_installService _ emb d (fun _ => rfl)]
    have hdn : (Event.exec "dotnet --info").isRuntimeInstall = false := rfl
    have h1 : (Event.extractDotNetRuntime d).isRuntimeInstall = false := rfl
    have h2 : (Event.extractConfigFile d).isRuntimeInstall = false := rfl
    have h3 : (Event.extractDependencies d).isRuntimeInstall = false := rfl
    have h4 : (Event.extractExecutable d).isRuntimeInstall = false := rfl
    simp [List.filter_cons, hdn, h1, h2, h3, h4, hsvc, hpath]

/-- Witness for C3: the sample run in which the directory exists and
`dotnet --info` fails. -/
theorem runtime_absent_extracts_and_installs_witness :
    (sampleEnvRuntimeAbsent.exec "dotnet --info").exitstatus ≠ 0 ∧
    ∃ r, main sampleEnvRuntimeAbsent sampleEmbedded sampleArgv = some r ∧
      Event.exec "dotnet --info" ∈ r.trace ∧
      r.trace.filter Event.isRuntimeExtraction = [Event.extractDotNetRuntime "C:\\Foo\\"] ∧
      (sampleEmbedded.dotNetRuntimePath ≠ "" →
        r.trace.filter Event.isRuntimeInstall =
          [Event.exec ("C:\\Foo\\" ++ sampleEmbedded.dotNetRuntimePath
            ++ " /install /quiet /norestart")] ∧
        invokedAfter (Event.exec ("C:\\Foo\\" ++ sampleEmbedded.dotNetRuntimePath
            ++ " /install /quiet /norestart"))
          (Event.extractDotNetRuntime "C:\\Foo\\") r.trace = true) ∧
      (sampleEmbedded.dotNetRuntimePath = "" → r.trace.filter Event.isRuntimeInstall = []) :=
  ⟨by decide,
    match runtime_absent_extracts_and_installs sampleEnvRuntimeAbsent sampleEmbedded
      sampleArgv "C:\\Foo\\" (by decide) (Or.inl (by decide)) with
    | ⟨r, hr, h⟩ =>
      have hmem : Event.exec "dotnet --info" ∈ r.trace :=
        (dotnetInfo_executed_iff sampleEnvRuntimeAbsent sampleEmbedded sampleArgv
          "C:\\Foo\\" (by decide) r hr).mpr (Or.inl rfl)
      ⟨r, hr, hmem, h hmem⟩⟩

/-- C4 as stated fails: with an embedded executable and a target directory
that cannot be created, `create_directory` throws, nothing catches the
exception, and the run ends before the executable extractor or any command
is invoked. -/
theorem executable_not_extracted_when_create_directory_throws :
    sampleEmbedded.executablePath ≠ "" ∧
      ∃ r, main sampleEnvCreateFails sampleEmbedded sampleArgv = some r ∧
        (∀ e ∈ r.trace, e.isExecutableExtraction = false ∧ e.isServiceInstall = false) ∧
        r.exitCode = none :=
  ⟨by decide, _, rfl, by decide, by decide⟩

/-- C4 amended: in every run (target directory normalizing to `d`): if
`executablePath` is empty, the executable extractor is not invoked and no
command ending in `" install"` is executed; if it is non-empty and the
existence check and the directory creation return, the collaborator calls of
the run end with the invocation of the executable extractor with `d`,
immediately followed by the command `d` followed by the path followed by
`" install"`, which is also the last event of the run; the extractor is
invoked nowhere else and no other command ends in `" install"`. -/
theorem executable_extraction_then_service_install (env : Env) (emb : Embedded)
    (argv : List String) (d : String)
    (hnorm : normalizeTargetDir (initialTargetDir argv) = some d) :
    ∃ r, main env emb argv = some r ∧
      (emb.executablePath = "" →
        ∀ e ∈ r.trace, e.isExecutableExtraction = false ∧ e.isServiceInstall = false) ∧
      (emb.executablePath ≠ "" → filesystemCallsReturn env d →
        (∃ pre, calls r = pre ++ [Event.extractExecutable d,
              Event.exec (d ++ emb.executablePath ++ " install")] ∧
          ∀ e ∈ pre, e.isExecutableExtraction = false ∧ e.isServiceInstall = false) ∧
        r.trace.getLast? = some (Event.exec (d ++ emb.executablePath ++ " install"))) := by
  have hbefore : ∀ e ∈ [Event.cout ("Target directory set to \"" ++ d ++ "\"")]
            ++ (ensureDirectory env d).1
            ++ installRuntime env emb d
            ++ extractConfig emb d
            ++ extractDeps d,
      e.isExecutableExtraction = false ∧ e.isServiceInstall = false := by
    intro e he
    rcases mem_before_installService env emb d e he with
      h | rfl | rfl | rfl | rfl | rfl | rfl | rfl
    · obtain ⟨-, -, -, h4, -, h6, -⟩ := not_extraction_of_not_isCall e h
      exact ⟨h4, h6⟩
    · exact ⟨rfl, rfl⟩
    · exact ⟨rfl, rfl⟩
    · exact ⟨rfl, rfl⟩
    · exact ⟨rfl, rfl⟩
    · exact ⟨rfl, isServiceInstall_runtimeInstallCommand emb d⟩
    · exact ⟨rfl, rfl⟩
    · exact ⟨rfl, rfl⟩
  by_cases hfs : filesystemCallsReturn env d
  swap
  · refine ⟨_, main_eq_of_throw env emb argv d hnorm hfs, ?_, fun _ h => absurd h hfs⟩
    intro _ e he
    rcases mem_of_throw env d e he with h | rfl | rfl
    · obtain ⟨-, -, -, h4, -, h6, -⟩ := not_extraction_of_not_isCall e h
      exact ⟨h4, h6⟩
    · exact ⟨rfl, rfl⟩
    · exact ⟨rfl, rfl⟩
  refine ⟨_, main_eq env emb argv d hnorm hfs, ?_, ?_⟩
  · intro hempty e he
    have hsvc : installService emb d = [] := by
      unfold installService
      simp [hempty]
    simp only [hsvc, List.append_nil] at he
    exact hbefore e he
  · intro hpath _
    have hsvc : installService emb d =
        [Event.cout ("Extracting the service executable \"" ++ emb.executablePath ++ "\""),
         Event.extractExecutable d,
         Event.cout ("Installing \"" ++ emb.executablePath ++ "\"" ++ "service"),
         Event.exec (serviceInstallCommand emb d)] := by
      unfold installService
      simp [hpath]
    constructor
    · refine ⟨([Event.cout ("Target directory set to \"" ++ d ++ "\"")]
            ++ (ensureDirectory env d).1
            ++ installRuntime env emb d
            ++ extractConfig emb d
            ++ extractDeps d).filter Event.isCall, ?_, ?_⟩
      · show List.filter Event.isCall _ = _
        rw [List.filter_append, hsvc]
        rfl
      · intro e he
        exact hbefore e (List.mem_of_mem_filter he)
    · show List.getLast? _ = _
      rw [hsvc, List.getLast?_append]
      rfl

/-- Witness for the amended C4: the sample run with an embedded executable
and a target directory that is created. -/
theorem executable_extraction_then_service_install_witness :
    normalizeTargetDir (initialTargetDir sampleArgv) = some "C:\\Foo\\" ∧
    sampleEmbedded.executablePath ≠ "" ∧
    filesystemCallsReturn sampleEnvRuntimePresent "C:\\Foo\\" ∧
    ∃ r, main sampleEnvRuntimePresent sampleEmbedded sampleArgv = some r ∧
      (sampleEmbedded.executablePath = "" →
        ∀ e ∈ r.trace, e.isExecutableExtraction = false ∧ e.isServiceInstall = false) ∧
      (sampleEmbedded.executablePath ≠ "" →
        filesystemCallsReturn sampleEnvRuntimePresent "C:\\Foo\\" →
        (∃ pre, calls r = pre ++ [Event.extractExecutable "C:\\Foo\\",
              Event.exec ("C:\\Foo\\" ++ sampleEmbedded.executablePath ++ " install")] ∧
          ∀ e ∈ pre, e.isExecutableExtraction = false ∧ e.isServiceInstall = false) ∧
        r.trace.getLast? =
          some (Event.exec ("C:\\Foo\\" ++ sampleEmbedded.executablePath ++ " install"))) :=
  ⟨by decide, by decide, Or.inr ⟨rfl, by decide⟩,
    executable_extraction_then_service_install sampleEnvRuntimePresent sampleEmbedded
      sampleArgv "C:\\Foo\\" (by decide)⟩

/-- C6 (the code violates it): for the empty target directory the
separator check evaluates `targetDir[targetDir.length() - 1]` with the index
`2 ^ 64 - 1`, which lies outside the valid range of the empty string, so the
access has no defined result and neither has the run. -/
theorem empty_target_directory_reads_out_of_range (env : Env) (emb : Embedded)
    (program : String) :
    lengthMinusOne "" = 18446744073709551615 ∧
      "".length < lengthMinusOne "" ∧
      stringIndex "" (lengthMinusOne "") = none ∧
      separatorMissing "" = none ∧
      normalizeTargetDir "" = none ∧
      main env emb [program, ""] = none := by
  exact ⟨by decide, by decide, by decide, by decide, by decide,
    main_undefined env emb [program, ""] normalizeTargetDir_empty⟩

/-- C7: take two runs with the same arguments and embedded paths (target
directory normalizing to `d`) whose environments give the same filesystem
answers and the same result for every command except the runtime install
command.  Each run executes at most one runtime install command, both runs
perform the same sequence of collaborator calls (hence the same calls after
the runtime install command) and end the same way, and when the runs execute
`dotnet --info` both end with exit code `0`. -/
theorem runtime_install_failure_not_fatal (env1 env2 : Env) (emb : Embedded)
    (argv : List String) (d : String)
    (hnorm : normalizeTargetDir (initialTargetDir argv) = some d)
    (hfs : ∀ path, env1.fsExists path = env2.fsExists path)
    (hcd : ∀ path, env1.createDirectory path = env2.createDirectory path)
    (hexec : ∀ commandLine, commandLine ≠ d ++ emb.dotNetRuntimePath
        ++ " /install /quiet /norestart" → env1.exec commandLine = env2.exec commandLine) :
    ∃ r1 r2, main env1 emb argv = some r1 ∧ main env2 emb argv = some r2 ∧
      (r1.trace.filter Event.isRuntimeInstall).length ≤ 1 ∧
      (r2.trace.filter Event.isRuntimeInstall).length ≤ 1 ∧
      calls r1 = calls r2 ∧
      eventsAfter (Event.exec (d ++ emb.dotNetRuntimePath ++ " /install /quiet /norestart"))
          (calls r1) =
        eventsAfter (Event.exec (d ++ emb.dotNetRuntimePath ++ " /install /quiet /norestart"))
          (calls r2) ∧
      r1.exitCode = r2.exitCode ∧
      (Event.exec "dotnet --info" ∈ r1.trace →
        r1.exitCode = some 0 ∧ r2.exitCode = some 0) := by
  have hinfo : env1.exec "dotnet --info" = env2.exec "dotnet --info" :=
    hexec _ (dotnetInfo_ne_runtimeInstallCommand emb d)
  by_cases hret : filesystemCallsReturn env1 d
  · have hret2 : filesystemCallsReturn env2 d := by
      unfold filesystemCallsReturn at hret ⊢
      rw [← hfs d, ← hcd d]
      exact hret
    have hcalls :
        ([Event.cout ("Target directory set to \"" ++ d ++ "\"")]
          ++ (ensureDirectory env1 d).1
          ++ installRuntime env1 emb d
          ++ extractConfig emb d
          ++ extractDeps d
          ++ installService emb d).filter Event.isCall =
        ([Event.cout ("Target directory set to \"" ++ d ++ "\"")]
          ++ (ensureDirectory env2 d).1
          ++ installRuntime env2 emb d
          ++ extractConfig emb d
          ++ extractDeps d
          ++ installService emb d).filter Event.isCall := by
      rw [filter_isCall_blocks, filter_isCall_blocks, hfs d, hinfo]
    have hcount : ∀ env : Env,
        (([Event.cout ("Target directory set to \"" ++ d ++ "\"")]
          ++ (ensureDirectory env d).1
          ++ installRuntime env emb d
          ++ extractConfig emb d
          ++ extractDeps d
          ++ installService emb d).filter Event.isRuntimeInstall).length ≤ 1 := by
      intro env
      rw [filter_isRuntimeInstall_blocks]
      split <;> simp
    refine ⟨_, _, main_eq env1 emb argv d hnorm hret, main_eq env2 emb argv d hnorm hret2,
      hcount env1, hcount env2, hcalls, ?_, rfl, fun _ => ⟨rfl, rfl⟩⟩
    unfold calls
    rw [hcalls]
  · have hret2 : ¬ filesystemCallsReturn env2 d := by
      unfold filesystemCallsReturn at hret ⊢
      rw [← hfs d, ← hcd d]
      exact hret
    have hcalls :
        ([Event.cout ("Target directory set to \"" ++ d ++ "\"")]
          ++ (ensureDirectory env1 d).1).filter Event.isCall =
        ([Event.cout ("Target directory set to \"" ++ d ++ "\"")]
          ++ (ensureDirectory env2 d).1).filter Event.isCall := by
      rw [List.filter_append, List.filter_append, filter_isCall_ensureDirectory,
        filter_isCall_ensureDirectory, hfs d]
    have hcount : ∀ env : Env,
        (([Event.cout ("Target directory set to \"" ++ d ++ "\"")]
          ++ (ensureDirectory env d).1).filter Event.isRuntimeInstall).length ≤ 1 := by
      intro env
      rw [List.filter_append, filter_ensureDirectory _ env d (fun _ => rfl) rfl rfl]
      simp [List.filter_cons, Event.isRuntimeInstall]
    refine ⟨_, _, main_eq_of_throw env1 emb argv d hnorm hret,
      main_eq_of_throw env2 emb argv d hnorm hret2,
      hcount env1, hcount env2, hcalls, ?_, rfl,
      fun hmem => absurd hmem (exec_not_mem_of_throw env1 d _)⟩
    unfold calls
    rw [hcalls]

/-- Witness for C7: two sample runs, one in which the runtime install
command fails and one in which it succeeds. -/
theorem runtime_install_failure_not_fatal_witness :
    (sampleEnvRuntimeAbsent.exec
        ("C:\\Foo\\" ++ sampleEmbedded.dotNetRuntimePath ++ " /install /quiet /norestart")
      ≠ sampleEnvInstallSucceeds.exec
        ("C:\\Foo\\" ++ sampleEmbedded.dotNetRuntimePath ++ " /install /quiet /norestart")) ∧
    ∃ r1 r2, main sampleEnvRuntimeAbsent sampleEmbedded sampleArgv = some r1 ∧
      main sampleEnvInstallSucceeds sampleEmbedded sampleArgv = some r2 ∧
      Event.exec "dotnet --info" ∈ r1.trace ∧
      (r1.trace.filter Event.isRuntimeInstall).length ≤ 1 ∧
      (r2.trace.filter Event.isRuntimeInstall).length ≤ 1 ∧
      calls r1 = calls r2 ∧
      eventsAfter (Event.exec ("C:\\Foo\\" ++ sampleEmbedded.dotNetRuntimePath
          ++ " /install /quiet /norestart")) (calls r1) =
        eventsAfter (Event.exec ("C:\\Foo\\" ++ sampleEmbedded.dotNetRuntimePath
          ++ " /install /quiet /norestart")) (calls r2) ∧
      r1.exitCode = some 0 ∧ r2.exitCode = some 0 :=
  ⟨by decide,
    match runtime_install_failure_not_fatal sampleEnvRuntimeAbsent sampleEnvInstallSucceeds
      sampleEmbedded sampleArgv "C:\\Foo\\" (by decide) (fun _ => rfl) (fun _ => rfl)
      (fun commandLine hcmd => by
        have hcmd2 : commandLine ≠ "C:\\Foo\\dotnet-runtime.exe /install /quiet /norestart" :=
          hcmd
        simp [sampleEnvRuntimeAbsent, sampleEnvInstallSucceeds, hcmd2]) with
    | ⟨r1, r2, h1, h2, hc1, hc2, hcalls, hafter, _, hexit⟩ =>
      have hmem : Event.exec "dotnet --info" ∈ r1.trace :=
        (dotnetInfo_executed_iff sampleEnvRuntimeAbsent sampleEmbedded sampleArgv
          "C:\\Foo\\" (by decide) r1 h1).mpr (Or.inl rfl)
      ⟨r1, r2, h1, h2, hmem, hc1, hc2, hcalls, hafter, hexit hmem⟩⟩

/-- C8 as stated fails: with no runtime installer embedded
(`dotNetRuntimePath = ""`) and a failing `dotnet --info`, the runtime
extractor is invoked all the same. -/
theorem runtime_extractor_invoked_with_empty_path :
    noEmbedded.dotNetRuntimePath = "" ∧
      ∃ r, main sampleEnvRuntimeAbsent noEmbedded sampleArgv = some r ∧
        Event.extractDotNetRuntime "C:\\Foo\\" ∈ r.trace :=
  ⟨rfl, _, rfl, by decide⟩

/-- C8 amended: in every run (target directory normalizing to `d`) the
config extractor is invoked only if `configFilePath` is non-empty, the
executable extractor only if `executablePath` is non-empty, and the runtime
extractor only if `dotnet --info` returns a non-zero exit status or output
without `"6.0.2"`, whether or not `dotNetRuntimePath` is empty; every one of
these invocations receives `d`. -/
theorem extractor_guards (env : Env) (emb : Embedded) (argv : List String) (d : String)
    (hnorm : normalizeTargetDir (initialTargetDir argv) = some d) :
    ∃ r, main env emb argv = some r ∧
      (∀ dir, Event.extractConfigFile dir ∈ r.trace →
        emb.configFilePath ≠ "" ∧ dir = d) ∧
      (∀ dir, Event.extractExecutable dir ∈ r.trace →
        emb.executablePath ≠ "" ∧ dir = d) ∧
      (∀ dir, Event.extractDotNetRuntime dir ∈ r.trace →
        ((env.exec "dotnet --info").exitstatus ≠ 0 ∨
          ¬ DotNetVersion.data <:+: (env.exec "dotnet --info").output.data) ∧ dir = d) := by
  obtain ⟨r, hr, hsub⟩ := main_trace_subset env emb argv d hnorm
  refine ⟨r, hr, ?_, ?_, ?_⟩
  · intro dir he
    have he := hsub _ he
    simp only [List.mem_append, List.mem_singleton, mem_ensureDirectory, mem_installRuntime,
      mem_extractConfig, mem_extractDeps, mem_installService] at he
    simp only [Event.extractConfigFile.injEq, reduceCtorEq, false_or, or_false, and_false,
      false_and] at he
    exact he
  · intro dir he
    have he := hsub _ he
    simp only [List.mem_append, List.mem_singleton, mem_ensureDirectory, mem_installRuntime,
      mem_extractConfig, mem_extractDeps, mem_installService] at he
    simp only [Event.extractExecutable.injEq, reduceCtorEq, false_or, or_false, and_false,
      false_and] at he
    exact he
  · intro dir he
    have he := hsub _ he
    simp only [List.mem_append, List.mem_singleton, mem_ensureDirectory, mem_installRuntime,
      mem_extractConfig, mem_extractDeps, mem_installService] at he
    simp only [Event.extractDotNetRuntime.injEq, reduceCtorEq, false_or, or_false, and_false,
      false_and] at he
    rw [← runtimeAbsent_iff]
    exact he

/-- Witness for the amended C8: the sample run with all three artifacts
embedded, in which all three extractors are invoked. -/
theorem extractor_guards_witness :
    normalizeTargetDir (initialTargetDir sampleArgv) = some "C:\\Foo\\" ∧
    (∃ r, main sampleEnvRuntimeAbsent sampleEmbedded sampleArgv = some r ∧
      Event.extractConfigFile "C:\\Foo\\" ∈ r.trace ∧
      Event.extractExecutable "C:\\Foo\\" ∈ r.trace ∧
      Event.extractDotNetRuntime "C:\\Foo\\" ∈ r.trace) ∧
    ∃ r, main sampleEnvRuntimeAbsent sampleEmbedded sampleArgv = some r ∧
      (∀ dir, Event.extractConfigFile dir ∈ r.trace →
        sampleEmbedded.configFilePath ≠ "" ∧ dir = "C:\\Foo\\") ∧
      (∀ dir, Event.extractExecutable dir ∈ r.trace →
        sampleEmbedded.executablePath ≠ "" ∧ dir = "C:\\Foo\\") ∧
      (∀ dir, Event.extractDotNetRuntime dir ∈ r.trace →
        ((sampleEnvRuntimeAbsent.exec "dotnet --info").exitstatus ≠ 0 ∨
          ¬ DotNetVersion.data <:+:
            (sampleEnvRuntimeAbsent.exec "dotnet --info").output.data) ∧
        dir = "C:\\Foo\\") :=
  ⟨by decide, ⟨_, rfl, by decide, by decide, by decide⟩,
    extractor_guards sampleEnvRuntimeAbsent sampleEmbedded sampleArgv "C:\\Foo\\" (by decide)⟩

/-- C9 as stated fails: with an embedded executable, the executable
extractor is invoked after the dependency extractor, not before it. -/
theorem executable_extracted_after_dependencies :
    ∃ r, main sampleEnvRuntimePresent sampleEmbedded sampleArgv = some r ∧
      Event.extractExecutable "C:\\Foo\\" ∈ r.trace ∧
      invokedAfter (Event.extractDependencies "C:\\Foo\\")
        (Event.extractExecutable "C:\\Foo\\") r.trace = false :=
  ⟨_, rfl, by decide, by decide⟩

/-- C9 amended: in every run (target directory normalizing to `d`) the
invocation of the dependency extractor comes after every invocation of the
runtime extractor and of the config extractor, and before every invocation
of the executable extractor. -/
theorem dependencies_after_config_before_executable (env : Env) (emb : Embedded)
    (argv : List String) (d : String)
    (hnorm : normalizeTargetDir (initialTargetDir argv) = some d) :
    ∃ r, main env emb argv = some r ∧
      (∀ e ∈ r.trace, e.isRuntimeExtraction = true ∨ e.isConfigExtraction = true →
        invokedAfter (Event.extractDependencies d) e r.trace = true) ∧
      (∀ e ∈ r.trace, e.isExecutableExtraction = true →
        invokedAfter e (Event.extractDependencies d) r.trace = true) := by
  have hdeps : Event.extractDependencies d ∈ extractDeps d := by
    rw [mem_extractDeps]
    exact Or.inr rfl
  by_cases hfs : filesystemCallsReturn env d
  swap
  · refine ⟨_, main_eq_of_throw env emb argv d hnorm hfs, ?_, ?_⟩
    · intro e he hkind
      rcases mem_of_throw env d e he with h | rfl | rfl
      · obtain ⟨h1, h2, -⟩ := not_extraction_of_not_isCall e h
        simp [h1, h2] at hkind
      all_goals simp [Event.isRuntimeExtraction, Event.isConfigExtraction] at hkind
    · intro e he hkind
      rcases mem_of_throw env d e he with h | rfl | rfl
      · obtain ⟨-, -, -, h4, -⟩ := not_extraction_of_not_isCall e h
        simp [h4] at hkind
      all_goals simp [Event.isExecutableExtraction] at hkind
  refine ⟨_, main_eq env emb argv d hnorm hfs, ?_, ?_⟩
  · intro e he hkind
    show invokedAfter _ _ (_ ++ _ ++ _) = true
    apply invokedAfter_append_left
    simp only [List.mem_append] at he
    rcases he with (he | he) | he
    · exact invokedAfter_of_mem _ _ _ _ (by simpa only [List.mem_append] using he) hdeps
    · rw [mem_extractDeps] at he
      rcases he with rfl | rfl <;>
        simp [Event.isRuntimeExtraction, Event.isConfigExtraction] at hkind
    · rcases mem_installService_cases emb d e he with h | rfl | rfl
      · obtain ⟨h1, h2, -⟩ := not_extraction_of_not_isCall e h
        simp [h1, h2] at hkind
      all_goals simp [Event.isRuntimeExtraction, Event.isConfigExtraction] at hkind
  · intro e he hkind
    simp only [List.mem_append] at he
    rcases he with he | he
    · rcases mem_before_installService env emb d e (by simpa only [List.mem_append] using he)
        with h | rfl | rfl | rfl | rfl | rfl | rfl | rfl
      · obtain ⟨-, -, -, h4, -⟩ := not_extraction_of_not_isCall e h
        simp [h4] at hkind
      all_goals simp [Event.isExecutableExtraction] at hkind
    · exact invokedAfter_of_mem _ _ _ _ (List.mem_append_right _ hdeps) he

/-- Witness for the amended C9: the sample run with all three artifacts
embedded. -/
theorem dependencies_after_config_before_executable_witness :
    normalizeTargetDir (initialTargetDir sampleArgv) = some "C:\\Foo\\" ∧
    ∃ r, main sampleEnvRuntimeAbsent sampleEmbedded sampleArgv = some r ∧
      (∀ e ∈ r.trace, e.isRuntimeExtraction = true ∨ e.isConfigExtraction = true →
        invokedAfter (Event.extractDependencies "C:\\Foo\\") e r.trace = true) ∧
      (∀ e ∈ r.trace, e.isExecutableExtraction = true →
        invokedAfter e (Event.extractDependencies "C:\\Foo\\") r.trace = true) :=
  ⟨by decide,
    dependencies_after_config_before_executable sampleEnvRuntimeAbsent sampleEmbedded
      sampleArgv "C:\\Foo\\" (by decide)⟩

/-- C10: in a run with a non-empty target directory (of a size that fits
`size_t`), the normalized directory `d` ends in `'\\'` or `'/'`; the
directory argument of the existence check, of the directory creation and of
every extractor is `d`; and every command other than `dotnet --info` has a
command line that starts with `d`. -/
theorem target_directory_ends_in_separator (env : Env) (emb : Embedded)
    (argv : List String)
    (hlen : (initialTargetDir argv).length < SIZE_MODULUS)
    (hne : initialTargetDir argv ≠ "") :
    ∃ d r, normalizeTargetDir (initialTargetDir argv) = some d ∧
      main env emb argv = some r ∧ endsInSeparator d ∧
      (∀ e ∈ r.trace, ∀ dir, e.directory = some dir → dir = d) ∧
      (∀ commandLine, Event.exec commandLine ∈ r.trace → commandLine ≠ "dotnet --info" →
        d.data <+: commandLine.data) := by
  obtain ⟨d, hnorm⟩ := normalizeTargetDir_defined _ hne
  obtain ⟨r, hr, hsub⟩ := main_trace_subset env emb argv d hnorm
  refine ⟨d, r, hnorm, hr,
    endsInSeparator_of_normalizeTargetDir _ d hlen hnorm, ?_, ?_⟩
  · intro e he dir hdir
    have he := hsub e he
    simp only [List.mem_append] at he
    rcases he with he | he
    · rcases mem_before_installService env emb d e (by simpa only [List.mem_append] using he)
        with h | rfl | rfl | rfl | rfl | rfl | rfl | rfl
      · obtain ⟨-, -, -, -, -, -, h7, -⟩ := not_extraction_of_not_isCall e h
        rw [h7] at hdir
        exact absurd hdir (by simp)
      all_goals simp [Event.directory] at hdir
      all_goals exact hdir.symm
    · rcases mem_installService_cases emb d e he with h | rfl | rfl
      · obtain ⟨-, -, -, -, -, -, h7, -⟩ := not_extraction_of_not_isCall e h
        rw [h7] at hdir
        exact absurd hdir (by simp)
      all_goals simp [Event.directory] at hdir
      all_goals exact hdir.symm
  · intro commandLine he hcmd
    have he := hsub _ he
    simp only [List.mem_append] at he
    rcases he with he | he
    · rcases mem_before_installService env emb d _ (by simpa only [List.mem_append] using he)
        with h | h | h | h | h | h | h | h
      · exact absurd h (by simp [Event.isCall])
      · exact Event.noConfusion h
      · exact Event.noConfusion h
      · exact absurd (Event.exec.inj h) hcmd
      · exact Event.noConfusion h
      · rw [Event.exec.inj h]
        exact prefix_runtimeInstallCommand emb d
      · exact Event.noConfusion h
      · exact Event.noConfusion h
    · rcases mem_installService_cases emb d _ he with h | h | h
      · exact absurd h (by simp [Event.isCall])
      · exact Event.noConfusion h
      · rw [Event.exec.inj h]
        exact prefix_serviceInstallCommand emb d

/-- Witness for C10: the sample run with the target directory `C:\Foo`. -/
theorem target_directory_ends_in_separator_witness :
    ((initialTargetDir sampleArgv).length < SIZE_MODULUS ∧ initialTargetDir sampleArgv ≠ "") ∧
    ∃ d r, normalizeTargetDir (initialTargetDir sampleArgv) = some d ∧
      main sampleEnvRuntimeAbsent sampleEmbedded sampleArgv = some r ∧ endsInSeparator d ∧
      (∀ e ∈ r.trace, ∀ dir, e.directory = some dir → dir = d) ∧
      (∀ commandLine, Event.exec commandLine ∈ r.trace → commandLine ≠ "dotnet --info" →
        d.data <+: commandLine.data) :=
  ⟨⟨by decide, by decide⟩,
    target_directory_ends_in_separator sampleEnvRuntimeAbsent sampleEmbedded sampleArgv
      (by decide) (by decide)⟩

end Installer
